import Mathlib

set_option maxHeartbeats 1000000

/-
Verification of the MCP demo server/client protocol engine.

Shallow embedding of the TypeScript sources:
  * src/typescript/src/utils/schema-validator.ts   (validateSchema / validateInput)
  * src/typescript/src/mcp/server.ts               (MCPServer: registerTool, callTool)
  * src/typescript/src/mcp/host.ts                 (MCPHost: chat, chatWithRequest)
  * src/wip-typescript/src/mcp/client.ts           (MCPClient.sendJsonRpcRequest)
  * src/wip-typescript/src/cli/natural-language-cli.ts
      (JSON-RPC MCPServer: parseJsonRpcRequest, processJsonRpcRequest,
       handleRequests receive loop, lifecycle gating)

The JavaScript JSON.parse function is external to the repository; a line of input is
modelled by its parse result `Option JValue` (`none` when JSON.parse throws).
The model-completion backend (LLM provider) is an external collaborator and is
modelled as an oracle function supplied as a parameter.
-/

namespace MCPDemo

/-- Single-quote character as a string, used inside error messages. -/
def sq : String := String.mk [Char.ofNat 39]

/-- JSON values as produced by JSON.parse: null, booleans, numbers
(integral numbers suffice for this code base), strings, arrays, objects. -/
inductive JValue where
  | null
  | bool (b : Bool)
  | num (n : Int)
  | str (s : String)
  | arr (elems : List JValue)
  | obj (fields : List (String × JValue))

/-- Field lookup on a JSON object (`v.field` in JS); `none` both when the
value is not an object and when the field is absent (JS `undefined`). -/
def JValue.getField : JValue → String → Option JValue
  | .obj fields, key => lookupField fields key
  | _, _ => none
where
  lookupField : List (String × JValue) → String → Option JValue
    | [], _ => none
    | (k, v) :: rest, key => if k = key then some v else lookupField rest key

/-- Whether a JSON value is an object. -/
def JValue.isObj : JValue → Bool
  | .obj _ => true
  | _ => false

/-- JavaScript truthiness of a JSON value. -/
def jsTruthy : JValue → Bool
  | .null => false
  | .bool b => b
  | .num n => n ≠ 0
  | .str s => s ≠ ""
  | .arr _ => true
  | .obj _ => true

/-- One property entry of a JSON schema, covering the schema keywords the
tools of the repository use (src/unnamed/part_005 DiceTool:
type "integer", minimum 1). -/
structure SchemaProp where
  name : String
  ty : Option String := none
  minimum : Option Int := none
deriving DecidableEq

/-- A JSON schema of the shape the tools of the repository declare
(type "object" with properties and optional required list);
see ToolInputSchema in src/typescript/src/types/tools.ts. -/
structure JSONSchema where
  ty : String := "object"
  properties : List SchemaProp := []
  required : List String := []
deriving DecidableEq

/-- One Ajv validation error: instance path plus message. -/
structure AjvError where
  instancePath : String
  message : String
deriving DecidableEq

/-- Whether a JSON value matches an Ajv type keyword. -/
def typeMatches : String → JValue → Bool
  | "integer", .num _ => true
  | "number", .num _ => true
  | "string", .str _ => true
  | "boolean", .bool _ => true
  | "object", .obj _ => true
  | "array", .arr _ => true
  | _, _ => false

/-- Type-keyword errors for one property value. -/
def typeErrors (p : SchemaProp) (v : JValue) : List AjvError :=
  match p.ty with
  | some t => if typeMatches t v then [] else [⟨"/" ++ p.name, "must be " ++ t⟩]
  | none => []

/-- Minimum-keyword errors for one property value (Ajv applies `minimum` to
numeric instances only). -/
def minimumErrors (p : SchemaProp) (v : JValue) : List AjvError :=
  match p.minimum, v with
  | some m, .num n => if n < m then [⟨"/" ++ p.name, "must be >= " ++ toString m⟩] else []
  | _, _ => []

/-- All errors for one declared property: absent properties produce no
per-property errors; present ones are checked against every keyword. -/
def checkProp (data : JValue) (p : SchemaProp) : List AjvError :=
  match data.getField p.name with
  | none => []
  | some v => typeErrors p v ++ minimumErrors p v

/-- Errors for missing required properties. -/
def requiredErrors (data : JValue) (required : List String) : List AjvError :=
  (required.filter (fun r => (data.getField r).isNone)).map
    (fun r => ⟨"", "must have required property " ++ sq ++ r ++ sq⟩)

/-- Modelled behavior of the external Ajv validator exactly as configured in
src/typescript/src/utils/schema-validator.ts: `new Ajv({ allErrors: true })`,
so validation collects every violation instead of stopping at the first.
Restricted to the schema keywords the tools of the repository use. -/
def ajvValidate (schema : JSONSchema) (data : JValue) : List AjvError :=
  if schema.ty = "object" && !data.isObj then [⟨"", "must be object"⟩]
  else requiredErrors data schema.required ++ (schema.properties.map (checkProp data)).flatten

/-- Independent count of violated constraints (required misses plus
per-property keyword violations), used to state that `ajvValidate`
drops no violation. -/
def countViolations (schema : JSONSchema) (data : JValue) : Nat :=
  if schema.ty = "object" && !data.isObj then 1
  else (schema.required.filter (fun r => (data.getField r).isNone)).length
    + (schema.properties.map (fun p => (checkProp data p).length)).sum

/-- Error thrown by the schema validator: message plus the full Ajv error
list (class ToolInputValidationError in src/typescript/src/types/tools.ts). -/
structure ToolInputValidationError where
  message : String
  errors : List AjvError
deriving DecidableEq

/-- validateSchema from src/typescript/src/utils/schema-validator.ts: compiles
and runs the schema and, on failure, throws ToolInputValidationError carrying
the joined message and the complete error list. -/
def validateSchema (schema : JSONSchema) (data : JValue) :
    Except ToolInputValidationError Unit :=
  let errors := ajvValidate schema data
  if errors.isEmpty then .ok ()
  else .error ⟨"入力検証エラー: " ++
    String.intercalate "; " (errors.map (fun e => e.instancePath ++ " " ++ e.message)),
    errors⟩

/-- validateInput (same file) delegates to validateSchema. -/
def validateInput (schema : JSONSchema) (input : JValue) :
    Except ToolInputValidationError Unit :=
  validateSchema schema input

/-- A registered tool (interface Tool in src/typescript/src/types/tools.ts):
name, description, input schema and handler. Exceptions thrown by the handler
are modelled by `Except String`. -/
structure Tool where
  name : String
  description : String
  inputSchema : JSONSchema
  handler : JValue → Except String JValue

/-- Lookup in the JS `Map<string, Tool>` (`this.tools.get(name)`). -/
def mapGet (m : List (String × Tool)) (k : String) : Option Tool :=
  match m with
  | [] => none
  | (k2, v) :: rest => if k2 = k then some v else mapGet rest k

/-- Key membership in the JS Map (`this.tools.has(name)`). -/
def mapHas (m : List (String × Tool)) (k : String) : Bool :=
  (mapGet m k).isSome

/-- JS `Map.set`: replaces the value in place when the key is present,
otherwise appends a new entry. -/
def mapSet (m : List (String × Tool)) (k : String) (v : Tool) :
    List (String × Tool) :=
  match m with
  | [] => [(k, v)]
  | (k2, v2) :: rest => if k2 = k then (k, v) :: rest else (k2, v2) :: mapSet rest k v

/-- registerTool from src/typescript/src/mcp/server.ts lines 76-83 (the
MCPServer in src/wip-typescript/src/cli/natural-language-cli.ts has the
identical method): throws when the name is taken and override is false,
otherwise stores/replaces the tool. -/
def registerTool (tools : List (String × Tool)) (tool : Tool) (override : Bool) :
    Except String (List (String × Tool)) :=
  if mapHas tools tool.name && !override then
    .error ("Tool " ++ sq ++ tool.name ++ sq ++ " is already registered")
  else
    .ok (mapSet tools tool.name tool)

/-- Observable effect of a registerTool call on the `tools` field: the throw
in registerTool happens before any mutation, so a failing call leaves the
map exactly as it was and reports the error. -/
def registerToolRun (tools : List (String × Tool)) (tool : Tool) (override : Bool) :
    List (String × Tool) × Option String :=
  match registerTool tools tool override with
  | .ok m => (m, none)
  | .error e => (tools, some e)

/-- Error raised by MCPServer.callTool: a rethrown ToolInputValidationError,
a ToolExecutionError wrapping a handler exception, or the plain not-found
Error. -/
inductive ToolCallError where
  | validationError (e : ToolInputValidationError)
  | executionError (message : String)
  | notFound (message : String)

/-- callTool from src/typescript/src/mcp/server.ts lines 116-143 (identical in
the wip MCPServer): looks the tool up, validates the inputs, runs the handler,
and wraps handler failures in ToolExecutionError. -/
def callTool (tools : List (String × Tool)) (name : String) (inputs : JValue) :
    Except ToolCallError JValue :=
  match mapGet tools name with
  | none => .error (.notFound ("Tool " ++ sq ++ name ++ sq ++ " not found"))
  | some tool =>
    match validateInput tool.inputSchema inputs with
    | .error e => .error (.validationError e)
    | .ok () =>
      match tool.handler inputs with
      | .ok output => .ok output
      | .error _ => .error (.executionError ("Error executing tool " ++ sq ++ name ++ sq))

/-- MCP standard error codes from the wip-typescript type definitions
(enum MCPErrorCode). -/
def MCPErrorCode.ParseError : Int := -32700
def MCPErrorCode.InvalidRequest : Int := -32600
def MCPErrorCode.MethodNotFound : Int := -32601
def MCPErrorCode.InvalidParams : Int := -32602
def MCPErrorCode.InternalError : Int := -32603
def MCPErrorCode.ToolNotFound : Int := -32000
def MCPErrorCode.ToolExecutionError : Int := -32001
def MCPErrorCode.InvalidToolInput : Int := -32002

/-- A parsed JSON-RPC request: the raw `id` field (`none` when absent),
method, and the raw `params` field. -/
structure JSONRPCRequest where
  id : Option JValue
  method : String
  params : Option JValue

/-- A JSON-RPC error object `{code, message, data?}`. -/
structure JSONRPCError where
  code : Int
  message : String
  data : Option JValue := none

/-- A JSON-RPC response: exactly one of `{id, result}` or `{id, error}`. -/
inductive JSONRPCResponse where
  | success (id : Option JValue) (result : JValue)
  | error (id : Option JValue) (err : JSONRPCError)

/-- Whether a response is a success response. -/
def JSONRPCResponse.isSuccess : JSONRPCResponse → Bool
  | .success _ _ => true
  | .error _ _ => false

/-- parseJsonRpcRequest from src/wip-typescript/src/cli/natural-language-cli.ts
(MCPServer, lines 603-630). The argument is the JSON.parse result of the
received line, `none` when the line was empty or JSON.parse threw. The JS
code rejects non-objects, a jsonrpc tag other than "2.0", and a missing,
non-string or empty (falsy) method field. -/
def parseJsonRpcRequest (parsed : Option JValue) : Except String JSONRPCRequest :=
  match parsed with
  | none => .error "JSON parse error"
  | some v =>
    match v with
    | .obj _ =>
      match v.getField "jsonrpc" with
      | some (.str ver) =>
        if ver = "2.0" then
          match v.getField "method" with
          | some (.str m) =>
            if m = "" then .error "Invalid method field"
            else .ok ⟨v.getField "id", m, v.getField "params"⟩
          | _ => .error "Invalid method field"
        else .error ("Invalid JSON-RPC version: " ++ ver)
      | _ => .error "Invalid JSON-RPC version"
    | _ => .error "Invalid request format: not an object"

/-- JS check `request.id === null || request.id === undefined` that routes a
parsed message into the notification branch. -/
def isNotificationId : Option JValue → Bool
  | none => true
  | some .null => true
  | some _ => false

/-- State of the wip MCPServer: the running flag, the tool map and the
`initialized` lifecycle flag. -/
structure ServerState where
  running : Bool
  tools : List (String × Tool)
  initialized : Bool

/-- Methods the wip server allows before initialization
(allowedPreInitMethods in processJsonRpcRequest). -/
def allowedPreInitMethods : List String := ["initialize", "ping"]

/-- Serialization of a schema property back to a JSON value (for tools/list
results). -/
def schemaPropToJson (p : SchemaProp) : JValue :=
  .obj ((match p.ty with
         | some t => [("type", JValue.str t)]
         | none => []) ++
        (match p.minimum with
         | some m => [("minimum", JValue.num m)]
         | none => []))

/-- Serialization of a schema back to a JSON value. -/
def schemaToJson (s : JSONSchema) : JValue :=
  .obj [("type", .str s.ty),
        ("properties", .obj (s.properties.map (fun p => (p.name, schemaPropToJson p)))),
        ("required", .arr (s.required.map JValue.str))]

/-- handleInitialize from the wip MCPServer (lines 676-687): replies with the
protocol version and the server identity; note it changes no state. -/
def handleInitialize (req : JSONRPCRequest) : JSONRPCResponse :=
  .success req.id
    (.obj [("protocolVersion", .str "2025-03-26"),
           ("serverInfo", .obj [("name", .str "MCP TypeScript Server"),
                                ("version", .str "1.0.0")])])

/-- handleListTools from the wip MCPServer: serializes every registered tool. -/
def handleListTools (st : ServerState) (req : JSONRPCRequest) : JSONRPCResponse :=
  .success req.id
    (.obj [("tools", .arr (st.tools.map (fun kv =>
      .obj [("name", .str kv.2.name),
            ("description", .str kv.2.description),
            ("inputSchema", schemaToJson kv.2.inputSchema)])))])

/-- handleCallTool from the wip MCPServer (lines 710-744): checks that `name`
is a non-empty string, delegates to callTool with `params.args || {}`, and
maps the error kinds to protocol error codes. The JS InternalError fallback
branch is unreachable because callTool raises only the three kinds above. -/
def handleCallTool (st : ServerState) (req : JSONRPCRequest) : JSONRPCResponse :=
  let params := req.params.getD (.obj [])
  match params.getField "name" with
  | some (.str name) =>
    if name = "" then
      .error req.id ⟨MCPErrorCode.InvalidParams, "Tool name is required and must be a string", none⟩
    else
      let args := match params.getField "args" with
        | some a => if jsTruthy a then a else .obj []
        | none => .obj []
      match callTool st.tools name args with
      | .ok output => .success req.id (.obj [("output", output), ("content", output)])
      | .error (.validationError e) =>
        .error req.id ⟨MCPErrorCode.InvalidToolInput, e.message, none⟩
      | .error (.executionError m) =>
        .error req.id ⟨MCPErrorCode.ToolExecutionError, m, none⟩
      | .error (.notFound m) =>
        .error req.id ⟨MCPErrorCode.ToolNotFound, m, none⟩
  | _ => .error req.id ⟨MCPErrorCode.InvalidParams, "Tool name is required and must be a string", none⟩

/-- processJsonRpcRequest from the wip MCPServer (lines 637-668): before
initialization every method outside allowedPreInitMethods is rejected with a
MethodNotFound error; otherwise the method is dispatched. The shutdown case
additionally schedules `stop()` on a timer (a later event outside this
request/response computation). -/
def processJsonRpcRequest (st : ServerState) (req : JSONRPCRequest) : JSONRPCResponse :=
  if st.initialized = false ∧ req.method ∉ allowedPreInitMethods then
    .error req.id ⟨MCPErrorCode.MethodNotFound,
      "Method " ++ req.method ++ " is not allowed before initialization", none⟩
  else
    match req.method with
    | "initialize" => handleInitialize req
    | "ping" => .success req.id (.str "pong")
    | "tools/list" => handleListTools st req
    | "tools/call" => handleCallTool st req
    | "shutdown" => .success req.id (.obj [("success", .bool true)])
    | _ => .error req.id ⟨MCPErrorCode.MethodNotFound,
        "Method " ++ req.method ++ " not found", none⟩

/-- One outcome of `connection.receive()` in the server loop: either a line
(given by its JSON.parse result) or a thrown channel error, tagged with what
`connection.isConnected()` returns afterwards. -/
inductive RecvEvent where
  | line (parsed : Option JValue)
  | fail (stillConnected : Bool)

/-- One iteration of the handleRequests receive loop of the wip MCPServer
(lines 547-596). Result: the state afterwards, the response sent on the
channel (if any), and whether the loop proceeds to the next iteration.
Parse failures (and anything thrown while processing) are answered with a
ParseError response addressed to a null id; notifications are consumed
silently, with `notifications/initialized` setting the initialized flag;
a channel read failure continues when still connected and breaks otherwise. -/
def handleStep (st : ServerState) (ev : RecvEvent) :
    ServerState × Option JSONRPCResponse × Bool :=
  match ev with
  | .fail stillConnected => (st, none, stillConnected)
  | .line parsed =>
    match parseJsonRpcRequest parsed with
    | .error msg =>
      (st, some (.error none ⟨MCPErrorCode.ParseError, msg, none⟩), true)
    | .ok req =>
      if isNotificationId req.id then
        if req.method = "notifications/initialized" then
          ({ st with initialized := true }, none, true)
        else
          (st, none, true)
      else
        (st, some (processJsonRpcRequest st req), true)

/-- Runs the receive loop over a sequence of channel events, collecting the
responses sent, and stopping early when an iteration breaks. -/
def runServer (st : ServerState) : List RecvEvent → ServerState × List JSONRPCResponse
  | [] => (st, [])
  | ev :: rest =>
    match handleStep st ev with
    | (st2, out, true) =>
      match runServer st2 rest with
      | (stF, outs) => (stF, out.toList ++ outs)
    | (st2, out, false) => (st2, out.toList)

/-- Whether a channel event is a line that parses to an `initialize` request. -/
def isInitializeRequestEvent : RecvEvent → Bool
  | .line parsed =>
    match parseJsonRpcRequest parsed with
    | .ok req => req.method = "initialize"
    | .error _ => false
  | .fail _ => false

/-- Whether a channel event is a line that parses to the
`notifications/initialized` notification. -/
def isInitializedNotificationEvent : RecvEvent → Bool
  | .line parsed =>
    match parseJsonRpcRequest parsed with
    | .ok req => isNotificationId req.id && req.method = "notifications/initialized"
    | .error _ => false
  | .fail _ => false

/-- Whether a channel event is a received line (as opposed to a read failure). -/
def isLineEvent : RecvEvent → Bool
  | .line _ => true
  | .fail _ => false

/-- parseJsonRpcResponse from src/wip-typescript/src/mcp/client.ts
(lines 153-197): returns the received response object, synthesizing a
ParseError response when the line is not JSON (this also covers the
leading-character pre-check) and an InvalidRequest response when the object
lacks the "2.0" jsonrpc tag. The synthesized message texts embed runtime
exception strings in JS and are abstracted to their fixed prefixes here. -/
def parseJsonRpcResponse (parsed : Option JValue) : JValue :=
  match parsed with
  | none =>
    .obj [("jsonrpc", .str "2.0"), ("id", .null),
          ("error", .obj [("code", .num (-32700)), ("message", .str "Parse error")])]
  | some v =>
    match v with
    | .obj _ =>
      match v.getField "jsonrpc" with
      | some (.str ver) =>
        if ver = "2.0" then v
        else
          .obj [("jsonrpc", .str "2.0"), ("id", .null),
                ("error", .obj [("code", .num (-32600)),
                                ("message", .str "Invalid JSON-RPC response")])]
      | _ =>
        .obj [("jsonrpc", .str "2.0"), ("id", .null),
              ("error", .obj [("code", .num (-32600)),
                              ("message", .str "Invalid JSON-RPC response")])]
    | _ =>
      .obj [("jsonrpc", .str "2.0"), ("id", .null),
            ("error", .obj [("code", .num (-32600)),
                            ("message", .str "Invalid JSON-RPC response")])]

/-- Message field of a JSON-RPC error object as a string (JS string
interpolation of `response.error.message`). -/
def errField (e : JValue) (field : String) : String :=
  match e.getField field with
  | some (.str s) => s
  | some (.num n) => toString n
  | some .null => "null"
  | some (.bool true) => "true"
  | some (.bool false) => "false"
  | _ => "undefined"

/-- Result of one MCPClient.sendJsonRpcRequest call. -/
structure CallResult where
  outcome : Except String JValue
  sentRequest : JSONRPCRequest
  newCounter : Nat
  remaining : List (Option JValue)

/-- Outcome the client computes from one received response line: a thrown
"Server error" when the response object carries a truthy error field, and
otherwise the result field of the response (JS `undefined` modelled as null). -/
def responseOutcome (line : Option JValue) : Except String JValue :=
  let response := parseJsonRpcResponse line
  match response.getField "error" with
  | some e =>
    if jsTruthy e then
      .error ("Server error: " ++ errField e "message" ++ " (" ++ errField e "code" ++ ")")
    else
      .ok ((response.getField "result").getD .null)
  | none => .ok ((response.getField "result").getD .null)

/-- sendJsonRpcRequest from src/wip-typescript/src/mcp/client.ts
(lines 121-146): allocates the next counter value as the request id, sends
the request, then awaits `connection.receive()` — the NEXT line the channel
delivers — and surfaces its result or error. The pending responses queued on
the channel are `incoming` (each given by its JSON.parse result, in arrival
order); `none` as the overall result means no line ever arrives and the call
suspends forever. Note the id field of the received response is never consulted. -/
def sendJsonRpcRequest (counter : Nat) (method : String) (params : JValue)
    (incoming : List (Option JValue)) : Option CallResult :=
  let id := counter + 1
  let request : JSONRPCRequest := ⟨some (.num id), method, some params⟩
  match incoming with
  | [] => none
  | line :: rest => some ⟨responseOutcome line, request, id, rest⟩

/-- Decoded result field of the queued response line whose id field equals
the given id, if any; this is the response a correlating client would match. -/
def resultForId (incoming : List (Option JValue)) (id : Int) : Option JValue :=
  match incoming with
  | [] => none
  | line :: rest =>
    match line with
    | some v =>
      match v.getField "id" with
      | some (.num n) => if n = id then v.getField "result" else resultForId rest id
      | _ => resultForId rest id
    | none => resultForId rest id

/-- Conversation message of the host (role and content). -/
structure LLMMessage where
  role : String
  content : String

/-- A function call requested by the model in the
`{"function_calls": [{name, arguments}]}` reply format. -/
structure FunctionCall where
  name : String
  arguments : JValue

/-- JSON.stringify for the modelled JSON values. -/
def jstringify : JValue → String
  | .null => "null"
  | .bool true => "true"
  | .bool false => "false"
  | .num n => toString n
  | .str s => "\"" ++ s ++ "\""
  | .arr elems => "[" ++ String.intercalate "," (jstringifyList elems) ++ "]"
  | .obj fields => "\x7b" ++ String.intercalate "," (jstringifyFields fields) ++ "\x7d"
where
  jstringifyList : List JValue → List String
    | [] => []
    | x :: rest => jstringify x :: jstringifyList rest
  jstringifyFields : List (String × JValue) → List String
    | [] => []
    | (k, v) :: rest => ("\"" ++ k ++ "\":" ++ jstringify v) :: jstringifyFields rest

/-- Field accesses `call.name` / `call.arguments` on one entry of the parsed
function_calls array (absent fields are JS undefined; an absent name renders
as the empty string downstream). -/
def decodeFunctionCall (v : JValue) : FunctionCall :=
  ⟨(match v.getField "name" with
    | some (.str s) => s
    | _ => ""),
   (v.getField "arguments").getD .null⟩

/-- Leading-character test `response.trim().startsWith(...)` of
extractFunctionCalls, computed on the character list: the first
non-whitespace character is an opening brace (code point 123). Trimming the
trailing end cannot change the first character, so this coincides with the
JS check. -/
def trimmedStartsWithLbrace (s : String) : Bool :=
  match s.data.dropWhile Char.isWhitespace with
  | c :: _ => c = Char.ofNat 123
  | [] => false

/-- extractFunctionCalls from src/typescript/src/mcp/host.ts (lines 196-215):
replies not starting with an opening brace, replies JSON.parse rejects, and
parsed replies without a non-empty function_calls array are all treated as
plain text (`none`). `jparse` is the external JSON.parse oracle. -/
def extractFunctionCalls (jparse : String → Option JValue) (response : String) :
    Option (List FunctionCall) :=
  if !(trimmedStartsWithLbrace response) then none
  else
    match jparse response with
    | none => none
    | some v =>
      match v.getField "function_calls" with
      | some (.arr calls) =>
        if calls.length > 0 then some (calls.map decodeFunctionCall) else none
      | _ => none

/-- Status line for one tool-call outcome, as formatted in MCPHost.chat:
`[name] 成功: <JSON.stringify(result)>` or `[name] エラー: <message>`. -/
def toolResultLine : String × Except String JValue → String
  | (name, .ok v) => "[" ++ name ++ "] 成功: " ++ jstringify v
  | (name, .error e) => "[" ++ name ++ "] エラー: " ++ e

/-- The single synthetic status message MCPHost.chat appends to the
conversation after a batch of tool calls, summarizing every outcome. -/
def toolResultMessage (results : List (String × Except String JValue)) : String :=
  "ツール実行結果:\n" ++ String.intercalate "\n" (results.map toolResultLine) ++
  "\n\n上記のツール実行結果を元に、ユーザーの質問に対して最終的な回答を生成してください。"

/-- Result of one MCPHost.chat turn: the string returned to the caller, the
conversation history afterwards, and the tool invocations performed
(name paired with the captured outcome, in request order). -/
structure ChatOutcome where
  response : String
  history : List LLMMessage
  invocations : List (String × Except String JValue)

/-- chat from src/typescript/src/mcp/host.ts (lines 107-189). `jparse` is the
external JSON.parse, `sendMessage` the external model-completion backend
(a reply for each conversation history), and `callToolC` the outcome of
MCPClient.callTool for a given tool name and arguments (an `Except.error` is
the caught per-call failure). When the first reply requests function calls,
every requested call is invoked (Promise.all over the batch, each failure
captured individually), the assistant reply and one synthetic status message
are appended to the history, and the backend is re-invoked once; the second
reply is returned as-is. -/
def chat (jparse : String → Option JValue) (sendMessage : List LLMMessage → String)
    (callToolC : String → JValue → Except String JValue)
    (history : List LLMMessage) (userMessage : String) : ChatOutcome :=
  let h1 := history ++ [⟨"user", userMessage⟩]
  let r1 := sendMessage h1
  match extractFunctionCalls jparse r1 with
  | some calls =>
    if calls.length > 0 then
      let results := calls.map (fun c => (c.name, callToolC c.name c.arguments))
      let h2 := h1 ++ [⟨"assistant", r1⟩, ⟨"system", toolResultMessage results⟩]
      let r2 := sendMessage h2
      ⟨r2, h2 ++ [⟨"assistant", r2⟩], results⟩
    else
      ⟨r1, h1 ++ [⟨"assistant", r1⟩], []⟩
  | none => ⟨r1, h1 ++ [⟨"assistant", r1⟩], []⟩

/-- A tool call requested through the structured chatWithRequest interface. -/
structure ToolCall where
  id : String
  name : String
  arguments : JValue

/-- A model-completion reply in the chatWithRequest interface: text plus the
requested tool calls. -/
structure LLMChatResponse where
  message : String
  toolCalls : List ToolCall

/-- Captured outcome of one tool call in a chatWithRequest round. -/
structure ToolResultEntry where
  toolCallId : String
  outcome : Except String JValue

/-- maxToolCalls from MCPHost.chatWithRequest: the fixed bound on tool-call
rounds per turn. -/
def maxToolCalls : Nat := 10

/-- processToolCall from src/typescript/src/mcp/host.ts (lines 281-297):
rejects names absent from the availableTools manifest, otherwise invokes the
tool through the client (`invokeTool` is the external channel outcome). -/
def processToolCall (avail : List String)
    (invokeTool : String → JValue → Except String JValue) (tc : ToolCall) :
    Except String JValue :=
  if avail.contains tc.name then invokeTool tc.name tc.arguments
  else .error ("Tool " ++ sq ++ tc.name ++ sq ++ " not found in available tools")

/-- The while loop of MCPHost.chatWithRequest (lines 234-267): while the
current reply requests tool calls and fewer than maxToolCalls rounds have
run, process every requested call of the round (each failure captured as its
round entry), re-invoke the backend, and count the round. `provider i` is
the reply of backend invocation number i+1 this turn (the call before
the loop is invocation 0). Returns the final reply, the final round counter,
and the per-round captured results. -/
def toolCallLoop (provider : Nat → LLMChatResponse) (avail : List String)
    (invokeTool : String → JValue → Except String JValue)
    (resp : LLMChatResponse) (count : Nat) :
    LLMChatResponse × Nat × List (List ToolResultEntry) :=
  if h : resp.toolCalls.length > 0 ∧ count < maxToolCalls then
    let results := resp.toolCalls.map
      (fun tc => ⟨tc.id, processToolCall avail invokeTool tc⟩)
    match toolCallLoop provider avail invokeTool (provider (count + 1)) (count + 1) with
    | (final, cnt, rounds) => (final, cnt, results :: rounds)
  else
    (resp, count, [])
termination_by maxToolCalls - count
decreasing_by
  simp only [maxToolCalls] at *
  omega

/-- Result of one chatWithRequest turn: the final reply, the round counter,
whether the max-round warning was logged, and the per-round tool results. -/
structure ChatRunResult where
  finalResponse : LLMChatResponse
  roundCount : Nat
  warned : Bool
  rounds : List (List ToolResultEntry)

/-- chatWithRequest from src/typescript/src/mcp/host.ts (lines 222-274): one
backend call before the loop, then the bounded tool-call loop; when the
counter reaches maxToolCalls a warning is logged and the most recently
produced reply is returned. -/
def chatWithRequest (provider : Nat → LLMChatResponse) (avail : List String)
    (invokeTool : String → JValue → Except String JValue) : ChatRunResult :=
  match toolCallLoop provider avail invokeTool (provider 0) 0 with
  | (final, count, rounds) => ⟨final, count, decide (count ≥ maxToolCalls), rounds⟩

/-- Input schema of the DiceTool (src/unnamed/part_005): an object with an
optional integer property `sides`, minimum 1. -/
def diceSchema : JSONSchema := ⟨"object", [⟨"sides", some "integer", some 1⟩], []⟩

/-- Concrete dice tool instance for witnesses (roll fixed to 4). -/
def diceTool : Tool :=
  ⟨"dice", "Roll a die with the given number of sides", diceSchema,
   fun _ => .ok (.obj [("result", .num 4), ("sides", .num 6)])⟩

/-- A second tool definition under the same name, for override witnesses. -/
def diceTool2 : Tool :=
  ⟨"dice", "Replacement dice tool", diceSchema, fun _ => .ok (.num 42)⟩

/-- A fresh server state with only the dice tool registered. -/
def serverWithDice : ServerState := ⟨true, [("dice", diceTool)], false⟩

/-- A fresh server state with no tools registered. -/
def emptyServer : ServerState := ⟨true, [], false⟩

/-- A received `initialize` request line. -/
def initializeEvent : RecvEvent :=
  .line (some (.obj [("jsonrpc", .str "2.0"), ("id", .num 0),
                     ("method", .str "initialize")]))

/-- A received `notifications/initialized` notification line (no id). -/
def initializedNotificationEvent : RecvEvent :=
  .line (some (.obj [("jsonrpc", .str "2.0"),
                     ("method", .str "notifications/initialized")]))

/-- A tools/list request with the given id. -/
def toolsListRequest (id : Option JValue) : JSONRPCRequest :=
  ⟨id, "tools/list", none⟩

/-- A tools/call request for the given tool name and arguments object. -/
def toolsCallRequest (id : Option JValue) (name : String) (args : JValue) :
    JSONRPCRequest :=
  ⟨id, "tools/call", some (.obj [("name", .str name), ("args", args)])⟩

/-- A malformed notification: parses as a request without id, but with a
method the server does not know. -/
def malformedNotificationLine : Option JValue :=
  some (.obj [("jsonrpc", .str "2.0"), ("method", .str "garbage/unknown"),
              ("params", .num 5)])

/-- A queued response line carrying id 1 and result "A". -/
def respWithId1 : JValue :=
  .obj [("jsonrpc", .str "2.0"), ("id", .num 1), ("result", .str "A")]

/-- A queued response line carrying id 2 and result "B". -/
def respWithId2 : JValue :=
  .obj [("jsonrpc", .str "2.0"), ("id", .num 2), ("result", .str "B")]

/-- A model reply that requests two function calls, as the literal text the
backend would return (the JSON.parse oracle below maps it to `fcObj`). -/
def fcText : String := "\x7bfc\x7d"

/-- First requested call of the witness batch. -/
def fcCallA : JValue := .obj [("name", .str "a"), ("arguments", .null)]

/-- Second requested call of the witness batch. -/
def fcCallB : JValue := .obj [("name", .str "b"), ("arguments", .null)]

/-- Parsed form of `fcText`. -/
def fcObj : JValue := .obj [("function_calls", .arr [fcCallA, fcCallB])]

/-- JSON.parse oracle for the host witnesses. -/
def jparse0 : String → Option JValue := fun s => if s = fcText then some fcObj else none

/-- Backend oracle that always replies with the tool-call request text. -/
def sendMessage0 : List LLMMessage → String := fun _ => fcText

/-- Tool-call oracle where call "a" succeeds and every other call fails. -/
def callToolC0 : String → JValue → Except String JValue :=
  fun n _ => if n = "a" then .ok (.str "ra") else .error "boom"

/-- Backend oracle for chatWithRequest that requests a tool call on every
invocation. -/
def constProvider : Nat → LLMChatResponse :=
  fun _ => ⟨"keep going", [⟨"c1", "dice", .obj []⟩]⟩

/-- Predicate: the backend requests tool calls on every invocation. -/
def alwaysRequestsToolCalls (provider : Nat → LLMChatResponse) : Prop :=
  ∀ i, (provider i).toolCalls ≠ []

/-- Tool-call oracle that always succeeds with null. -/
def nullInvoke : String → JValue → Except String JValue := fun _ _ => .ok .null

/-- A schema with a required property `b` and an integer property `a` with
minimum 1, used to exhibit multi-violation collection. -/
def twoViolationSchema : JSONSchema :=
  ⟨"object", [⟨"a", some "integer", some 1⟩], ["b"]⟩

/-- Data violating both constraints of `twoViolationSchema`: `b` missing and
`a` below the minimum. -/
def twoViolationData : JValue := .obj [("a", .num 0)]

/-- Helper: Map.set followed by Map.get on the same key yields the new value. -/
theorem mapGet_mapSet_self (m : List (String × Tool)) (k : String) (v : Tool) :
    mapGet (mapSet m k v) k = some v := by
  induction m with
  | nil => simp [mapSet, mapGet]
  | cons hd tl ih =>
    obtain ⟨k2, v2⟩ := hd
    by_cases hk : k2 = k
    · simp [mapSet, mapGet, hk]
    · simp [mapSet, mapGet, hk, ih]

/-- C7: registering a tool with override=false fails with the duplicate-name
error exactly when the name is already registered, and a failing call leaves
the registry unchanged; registering with override=true always succeeds and
replaces any existing tool of that name, so a subsequent invoke of that name
runs the new definition. -/
theorem C7_registry_override (tools : List (String × Tool)) (tool : Tool) :
    (mapHas tools tool.name = true →
      registerToolRun tools tool false =
        (tools, some ("Tool " ++ sq ++ tool.name ++ sq ++ " is already registered"))) ∧
    (mapHas tools tool.name = false →
      registerTool tools tool false = .ok (mapSet tools tool.name tool)) ∧
    registerTool tools tool true = .ok (mapSet tools tool.name tool) ∧
    mapGet (mapSet tools tool.name tool) tool.name = some tool ∧
    (∀ (args : JValue) (v : JValue),
      validateInput tool.inputSchema args = .ok () → tool.handler args = .ok v →
      callTool (mapSet tools tool.name tool) tool.name args = .ok v) := by
  refine ⟨?_, ?_, ?_, mapGet_mapSet_self tools tool.name tool, ?_⟩
  · intro h
    simp [registerToolRun, registerTool, h]
  · intro h
    simp [registerTool, h]
  · simp [registerTool]
  · intro args v hval hhandler
    simp [callTool, mapGet_mapSet_self, hval, hhandler]

/-- Witness for C7 at a concrete registry: re-registering "dice" without
override fails and leaves the registry as it was; after an override
registration, invoking "dice" runs the replacement handler. -/
theorem C7_registry_override_witness :
    registerToolRun [("dice", diceTool)] diceTool2 false =
      ([("dice", diceTool)],
       some ("Tool " ++ sq ++ "dice" ++ sq ++ " is already registered")) ∧
    callTool (mapSet [("dice", diceTool)] "dice" diceTool2) "dice"
      (.obj [("sides", .num 6)]) = .ok (.num 42) := by
  have h := C7_registry_override [("dice", diceTool)] diceTool2
  exact ⟨h.1 rfl, h.2.2.2.2 (.obj [("sides", .num 6)]) (.num 42) rfl rfl⟩

/-- C8: a received line that fails to parse as a valid request is answered
with exactly one ParseError response addressed to a null id, after which the
state is unchanged and the loop continues; a channel read failure with the
connection no longer open terminates the loop. -/
theorem C8_parse_error_recovery :
    (∀ (st : ServerState) (parsed : Option JValue) (msg : String),
      parseJsonRpcRequest parsed = .error msg →
      handleStep st (.line parsed) =
        (st, some (.error none ⟨MCPErrorCode.ParseError, msg, none⟩), true)) ∧
    (∀ st : ServerState, handleStep st (.fail false) = (st, none, false)) := by
  constructor
  · intro st parsed msg h
    simp [handleStep, h]
  · intro st
    rfl

/-- Witness for C8: a line JSON.parse rejects produces the ParseError
response and the loop continues; a disconnected read failure stops it. -/
theorem C8_parse_error_recovery_witness :
    handleStep emptyServer (.line none) =
      (emptyServer,
       some (.error none ⟨MCPErrorCode.ParseError, "JSON parse error", none⟩), true) ∧
    handleStep emptyServer (.fail false) = (emptyServer, none, false) := by
  exact ⟨C8_parse_error_recovery.1 emptyServer none "JSON parse error" rfl,
         C8_parse_error_recovery.2 emptyServer⟩

/-- C9: a parsed message lacking an id (a notification) never receives a
reply, regardless of its method — malformed notifications are dropped, not
answered — and the loop continues. -/
theorem C9_notifications_never_replied (st : ServerState) (parsed : Option JValue)
    (req : JSONRPCRequest) (hp : parseJsonRpcRequest parsed = .ok req)
    (hn : isNotificationId req.id = true) :
    (handleStep st (.line parsed)).2.1 = none ∧
    (handleStep st (.line parsed)).2.2 = true := by
  simp only [handleStep, hp, hn, if_true]
  split <;> simp

/-- Witness for C9: a notification with an unknown method and junk params is
consumed without any reply. -/
theorem C9_notifications_never_replied_witness :
    (handleStep serverWithDice (.line malformedNotificationLine)).2.1 = none ∧
    (handleStep serverWithDice (.line malformedNotificationLine)).2.2 = true := by
  exact C9_notifications_never_replied serverWithDice malformedNotificationLine
    ⟨none, "garbage/unknown", some (.num 5)⟩ rfl rfl

/-- Counterexample to C2: the client sends a request with id 1, but the
channel delivers the response with id 2 first; the caller receives result
"B" from the id-2 response, not result "A" carried by the response whose id
matches its own request. The claim that each caller receives the
result of the response whose id equals its own request id is false. -/
theorem C2_counterexample :
    (sendJsonRpcRequest 0 "tools/list" (.obj [])
        [some respWithId2, some respWithId1]).map
      (fun r => (r.sentRequest.id, r.outcome)) =
      some (some (.num 1), .ok (.str "B")) ∧
    resultForId [some respWithId2, some respWithId1] 1 = some (.str "A") ∧
    ((Except.ok (.str "B") : Except String JValue) = .ok (.str "A") → False) := by
  refine ⟨rfl, rfl, ?_⟩
  intro h
  injection h with h
  injection h with h
  exact absurd h (by decide)

/-- C2 (amended): the client pairs each call with the next response line the
channel delivers, in arrival (FIFO) order; the outcome is computed from that
line alone, never consulting its id, so it is independent of the id the
request was assigned. -/
theorem C2_fifo_correlation (counter : Nat) (method : String) (params : JValue)
    (line : Option JValue) (rest : List (Option JValue)) :
    sendJsonRpcRequest counter method params (line :: rest) =
      some ⟨responseOutcome line, ⟨some (.num (counter + 1 : Nat)), method, some params⟩,
            counter + 1, rest⟩ ∧
    (∀ counter2 : Nat,
      (sendJsonRpcRequest counter2 method params (line :: rest)).map (fun r => r.outcome) =
        some (responseOutcome line)) := by
  exact ⟨rfl, fun _ => rfl⟩

/-- Helper: an iteration fed a received line always continues the loop. -/
theorem handleStep_line_continues (st : ServerState) (parsed : Option JValue) :
    (handleStep st (.line parsed)).2.2 = true := by
  cases h : parseJsonRpcRequest parsed with
  | error msg => simp [handleStep, h]
  | ok req =>
    simp only [handleStep, h]
    split
    · split <;> rfl
    · rfl

/-- Helper: an iteration fed a received line sets the initialized flag iff it
was already set or the line is the initialized notification. -/
theorem handleStep_line_initialized (st : ServerState) (parsed : Option JValue) :
    (handleStep st (.line parsed)).1.initialized =
      (st.initialized || isInitializedNotificationEvent (.line parsed)) := by
  cases h : parseJsonRpcRequest parsed with
  | error msg => simp [handleStep, isInitializedNotificationEvent, h]
  | ok req =>
    simp only [handleStep, isInitializedNotificationEvent, h]
    by_cases hn : isNotificationId req.id = true
    · by_cases hm : req.method = "notifications/initialized"
      · simp [hn, hm]
      · simp [hn, hm]
    · simp only [Bool.not_eq_true] at hn
      simp [hn]

/-- Counterexample to C4: starting from a fresh, never-initialized server, a
trace consisting of the `notifications/initialized` notification ALONE makes
the server Ready, although no `initialize` request was ever received. -/
theorem C4_ready_without_initialize_counterexample :
    (runServer emptyServer [initializedNotificationEvent]).1.initialized = true ∧
    ([initializedNotificationEvent].all
      (fun ev => !isInitializeRequestEvent ev)) = true := by
  exact ⟨rfl, rfl⟩

/-- C4 (amended): across any trace of received lines, the server is Ready
exactly when it was already Ready or some received line is the
`notifications/initialized` notification; receipt of the `initialize` request
is neither required nor tracked. -/
theorem C4_ready_iff_initialized_notification (st : ServerState)
    (evs : List RecvEvent) (h : ∀ ev ∈ evs, isLineEvent ev = true) :
    (runServer st evs).1.initialized =
      (st.initialized || evs.any isInitializedNotificationEvent) := by
  induction evs generalizing st with
  | nil => simp [runServer]
  | cons ev rest ih =>
    have hev : isLineEvent ev = true := h ev (List.mem_cons_self ev rest)
    have hrest : ∀ e ∈ rest, isLineEvent e = true :=
      fun e he => h e (List.mem_cons_of_mem _ he)
    obtain ⟨parsed, rfl⟩ : ∃ p, ev = .line p := by
      cases ev with
      | line p => exact ⟨p, rfl⟩
      | fail b => simp [isLineEvent] at hev
    rcases hstep : handleStep st (.line parsed) with ⟨st2, out, b⟩
    have hb : b = true := by
      have hc := handleStep_line_continues st parsed
      rw [hstep] at hc
      exact hc
    subst hb
    have hinit : st2.initialized =
        (st.initialized || isInitializedNotificationEvent (.line parsed)) := by
      have hi := handleStep_line_initialized st parsed
      rw [hstep] at hi
      exact hi
    rcases hrun : runServer st2 rest with ⟨stF, outs⟩
    have hih := ih st2 hrest
    rw [hrun] at hih
    simp only [runServer, hstep, hrun, List.any_cons]
    rw [hih, hinit, Bool.or_assoc]

/-- Witness for the amended C4 theorem on a concrete line-only trace: an
initialize request followed by the initialized notification leaves the
server Ready. -/
theorem C4_ready_iff_initialized_notification_witness :
    (runServer emptyServer [initializeEvent, initializedNotificationEvent]).1.initialized =
      (emptyServer.initialized ||
        [initializeEvent, initializedNotificationEvent].any
          isInitializedNotificationEvent) := by
  exact C4_ready_iff_initialized_notification emptyServer
    [initializeEvent, initializedNotificationEvent]
    (by intro ev hev; simp [initializeEvent, initializedNotificationEvent] at hev;
        rcases hev with rfl | rfl <;> rfl)

/-- Helper: processing the initialize request line replies with the
handleInitialize response and leaves the state unchanged. -/
theorem handleStep_initializeEvent (st : ServerState) :
    handleStep st initializeEvent =
      (st, some (handleInitialize ⟨some (.num 0), "initialize", none⟩), true) := by
  have hp : parseJsonRpcRequest
      (some (.obj [("jsonrpc", .str "2.0"), ("id", .num 0),
                   ("method", .str "initialize")])) =
      .ok ⟨some (.num 0), "initialize", none⟩ := rfl
  simp [handleStep, initializeEvent, hp, isNotificationId,
        processJsonRpcRequest, allowedPreInitMethods]

/-- Helper: processing the initialized notification line sends nothing and
sets the initialized flag. -/
theorem handleStep_initializedNotificationEvent (st : ServerState) :
    handleStep st initializedNotificationEvent =
      ({ st with initialized := true }, none, true) := by
  have hp : parseJsonRpcRequest
      (some (.obj [("jsonrpc", .str "2.0"),
                   ("method", .str "notifications/initialized")])) =
      .ok ⟨none, "notifications/initialized", none⟩ := rfl
  simp [handleStep, initializedNotificationEvent, hp, isNotificationId]

/-- Helper: running the initialize/initialized handshake from any state only
flips the initialized flag and replies once to the initialize request. -/
theorem runServer_handshake (st : ServerState) :
    runServer st [initializeEvent, initializedNotificationEvent] =
      ({ st with initialized := true },
       [handleInitialize ⟨some (.num 0), "initialize", none⟩]) := by
  simp [runServer, handleStep_initializeEvent,
        handleStep_initializedNotificationEvent]

/-- C1: (i) while the server is not initialized, any request whose method is
neither `initialize` nor `ping` is answered with the MethodNotFound-family
"not allowed before initialization" error; (ii) processing any non-
notification request line never changes the server state, so the rejection
does not advance the lifecycle; (iii) after the initialize request and the
initialized notification have been received, the same tools/list request and
the same tools/call request (for a registered tool whose arguments validate
and whose handler succeeds) are answered successfully. -/
theorem C1_lifecycle_gating :
    (∀ (st : ServerState) (req : JSONRPCRequest),
      st.initialized = false → req.method ≠ "initialize" → req.method ≠ "ping" →
      processJsonRpcRequest st req =
        .error req.id ⟨MCPErrorCode.MethodNotFound,
          "Method " ++ req.method ++ " is not allowed before initialization", none⟩) ∧
    (∀ (st : ServerState) (parsed : Option JValue) (req : JSONRPCRequest),
      parseJsonRpcRequest parsed = .ok req → isNotificationId req.id = false →
      (handleStep st (.line parsed)).1 = st) ∧
    (∀ (st : ServerState) (tool : Tool) (args : JValue) (id1 id2 : Option JValue),
      mapGet st.tools tool.name = some tool → tool.name ≠ "" → args.isObj = true →
      validateInput tool.inputSchema args = .ok () →
      (∃ v, tool.handler args = .ok v) →
      (runServer st [initializeEvent, initializedNotificationEvent]).1.initialized = true ∧
      (processJsonRpcRequest
        (runServer st [initializeEvent, initializedNotificationEvent]).1
        (toolsListRequest id1)).isSuccess = true ∧
      (processJsonRpcRequest
        (runServer st [initializeEvent, initializedNotificationEvent]).1
        (toolsCallRequest id2 tool.name args)).isSuccess = true) := by
  refine ⟨?_, ?_, ?_⟩
  · intro st req h1 h2 h3
    have hmem : req.method ∉ allowedPreInitMethods := by
      simp [allowedPreInitMethods, h2, h3]
    rw [processJsonRpcRequest, if_pos ⟨h1, hmem⟩]
  · intro st parsed req hp hn
    simp [handleStep, hp, hn]
  · intro st tool args id1 id2 htool hname hobj hval ⟨v, hv⟩
    obtain ⟨fs, rfl⟩ : ∃ fs, args = .obj fs := by
      cases args <;> simp [JValue.isObj] at hobj
      exact ⟨_, rfl⟩
    rw [runServer_handshake]
    refine ⟨rfl, ?_, ?_⟩
    · simp [processJsonRpcRequest, toolsListRequest, allowedPreInitMethods,
            handleListTools, JSONRPCResponse.isSuccess]
    · simp [processJsonRpcRequest, toolsCallRequest, allowedPreInitMethods,
            handleCallTool, callTool, htool, hname, hval, hv, jsTruthy,
            JValue.getField, JValue.getField.lookupField,
            JSONRPCResponse.isSuccess]


/-- Witness for C1 on a server holding the dice tool: a tools/list request
sent before initialization is rejected with the "not allowed before
initialization" MethodNotFound error; after the initialize request and the
initialized notification, the same tools/list and tools/call requests
succeed. -/
theorem C1_lifecycle_gating_witness :
    processJsonRpcRequest serverWithDice (toolsListRequest (some (.num 1))) =
      .error (some (.num 1)) ⟨MCPErrorCode.MethodNotFound,
        "Method " ++ "tools/list" ++ " is not allowed before initialization", none⟩ ∧
    (processJsonRpcRequest
      (runServer serverWithDice [initializeEvent, initializedNotificationEvent]).1
      (toolsListRequest (some (.num 1)))).isSuccess = true ∧
    (processJsonRpcRequest
      (runServer serverWithDice [initializeEvent, initializedNotificationEvent]).1
      (toolsCallRequest (some (.num 2)) "dice" (.obj [("sides", .num 6)]))).isSuccess = true := by
  have hpost := C1_lifecycle_gating.2.2 serverWithDice diceTool
    (.obj [("sides", .num 6)]) (some (.num 1)) (some (.num 2))
    rfl (by decide) rfl rfl ⟨_, rfl⟩
  exact ⟨C1_lifecycle_gating.1 serverWithDice (toolsListRequest (some (.num 1)))
           rfl (by decide) (by decide),
         hpost.2.1, hpost.2.2⟩

/-- C6: on any schema and data, a validation failure carries exactly the full
collected violation list (field path and message per entry) and that list is
never empty; the number of collected errors equals the number of violated
constraints counted independently (so no violation is dropped); in
particular, the dice schema rejects the input with sides -5 with a non-empty
violation list, a two-violation input yields two collected errors rather
than stopping at the first, and the empty object (sides optional, defaulted
by the tool) passes. -/
theorem C6_validation_collects_all :
    (∀ (schema : JSONSchema) (data : JValue) (e : ToolInputValidationError),
      validateSchema schema data = .error e →
      e.errors = ajvValidate schema data ∧ e.errors ≠ []) ∧
    (∀ (schema : JSONSchema) (data : JValue),
      (ajvValidate schema data).length = countViolations schema data) ∧
    validateSchema diceSchema (.obj [("sides", .num (-5))]) =
      .error ⟨"入力検証エラー: /sides must be >= 1",
              [⟨"/sides", "must be >= 1"⟩]⟩ ∧
    (ajvValidate twoViolationSchema twoViolationData).length = 2 ∧
    validateSchema diceSchema (.obj []) = .ok () := by
  refine ⟨?_, ?_, rfl, rfl, rfl⟩
  · intro schema data e h
    simp only [validateSchema] at h
    split at h
    · simp at h
    · next hc =>
      injection h with h2
      constructor
      · rw [← h2]
      · rw [← h2]
        intro hnil
        dsimp only at hnil
        exact hc (by simp [hnil])
  · intro schema data
    by_cases hc : (schema.ty = "object" && !data.isObj) = true
    · simp [ajvValidate, countViolations, hc]
    · simp [ajvValidate, countViolations, hc, requiredErrors,
            List.length_append, List.length_flatten, List.map_map,
            Function.comp]
      rfl

/-- Witness for C6: applying the completeness statement to the dice schema
and the invalid input with sides -5 yields the non-empty violation list. -/
theorem C6_validation_collects_all_witness :
    (⟨"入力検証エラー: /sides must be >= 1",
      [⟨"/sides", "must be >= 1"⟩]⟩ : ToolInputValidationError).errors =
      ajvValidate diceSchema (.obj [("sides", .num (-5))]) ∧
    (⟨"入力検証エラー: /sides must be >= 1",
      [⟨"/sides", "must be >= 1"⟩]⟩ : ToolInputValidationError).errors ≠ [] := by
  exact C6_validation_collects_all.1 diceSchema (.obj [("sides", .num (-5))]) _ rfl

/-- Helper: when the backend requests tool calls on every invocation, the
loop started at round k runs all remaining rounds and stops with the counter
at maxToolCalls, returning the backend reply from the final invocation. -/
theorem toolCallLoop_all_rounds (provider : Nat → LLMChatResponse)
    (avail : List String) (invokeTool : String → JValue → Except String JValue)
    (h : ∀ i, (provider i).toolCalls ≠ []) :
    ∀ (n k : Nat), k + n = maxToolCalls →
      (toolCallLoop provider avail invokeTool (provider k) k).1 = provider maxToolCalls ∧
      (toolCallLoop provider avail invokeTool (provider k) k).2.1 = maxToolCalls := by
  intro n
  induction n with
  | zero =>
    intro k hk
    have hk10 : k = maxToolCalls := by omega
    subst hk10
    rw [toolCallLoop]
    rw [dif_neg (by simp)]
    exact ⟨rfl, rfl⟩
  | succ n ih =>
    intro k hk
    have hlt : k < maxToolCalls := by omega
    have hlen : (provider k).toolCalls.length > 0 := List.length_pos.mpr (h k)
    rw [toolCallLoop]
    rw [dif_pos ⟨hlen, hlt⟩]
    rcases hrec : toolCallLoop provider avail invokeTool (provider (k + 1)) (k + 1)
      with ⟨f, c, r⟩
    have hih := ih (k + 1) (by omega)
    rw [hrec] at hih
    simpa [hrec] using hih

/-- Helper: the loop counter never exceeds maxToolCalls when it starts at a
value at most maxToolCalls. -/
theorem toolCallLoop_count_le (provider : Nat → LLMChatResponse)
    (avail : List String) (invokeTool : String → JValue → Except String JValue) :
    ∀ (n : Nat) (resp : LLMChatResponse) (k : Nat), k + n = maxToolCalls →
      (toolCallLoop provider avail invokeTool resp k).2.1 ≤ maxToolCalls := by
  intro n
  induction n with
  | zero =>
    intro resp k hk
    have hk10 : k = maxToolCalls := by omega
    subst hk10
    rw [toolCallLoop]
    rw [dif_neg (by simp)]
  | succ n ih =>
    intro resp k hk
    by_cases hcond : resp.toolCalls.length > 0 ∧ k < maxToolCalls
    · rw [toolCallLoop]
      rw [dif_pos hcond]
      rcases hrec : toolCallLoop provider avail invokeTool (provider (k + 1)) (k + 1)
        with ⟨f, c, r⟩
      have hih := ih (provider (k + 1)) (k + 1) (by omega)
      rw [hrec] at hih
      simpa [hrec] using hih
    · rw [toolCallLoop]
      rw [dif_neg hcond]
      dsimp only
      omega

/-- C3: the tool-call loop of the orchestrator never exceeds maxToolCalls (= 10)
rounds per user turn; when the backend requests tool calls on every
invocation, the loop terminates after exactly 10 rounds, the max-round
warning is logged, and the final reply is the most recently produced backend
response (the reply of the 10th in-loop invocation). -/
theorem C3_bounded_tool_loop (provider : Nat → LLMChatResponse)
    (avail : List String) (invokeTool : String → JValue → Except String JValue)
    (h : alwaysRequestsToolCalls provider) :
    (chatWithRequest provider avail invokeTool).finalResponse =
      provider maxToolCalls ∧
    (chatWithRequest provider avail invokeTool).roundCount = maxToolCalls ∧
    (chatWithRequest provider avail invokeTool).warned = true ∧
    (∀ (provider2 : Nat → LLMChatResponse) (avail2 : List String)
       (invokeTool2 : String → JValue → Except String JValue),
      (chatWithRequest provider2 avail2 invokeTool2).roundCount ≤ maxToolCalls) := by
  have hall := toolCallLoop_all_rounds provider avail invokeTool h maxToolCalls 0 (by omega)
  rcases hloop : toolCallLoop provider avail invokeTool (provider 0) 0 with ⟨f, c, r⟩
  rw [hloop] at hall
  obtain ⟨hf, hc⟩ := hall
  dsimp only at hf hc
  refine ⟨?_, ?_, ?_, ?_⟩
  · simp [chatWithRequest, hloop, hf]
  · simp [chatWithRequest, hloop, hc]
  · simp [chatWithRequest, hloop, hc]
  · intro provider2 avail2 invokeTool2
    have hle := toolCallLoop_count_le provider2 avail2 invokeTool2 maxToolCalls
      (provider2 0) 0 (by omega)
    rcases hloop2 : toolCallLoop provider2 avail2 invokeTool2 (provider2 0) 0
      with ⟨f2, c2, r2⟩
    rw [hloop2] at hle
    simpa [chatWithRequest, hloop2] using hle

/-- Witness for C3: a backend that always requests one dice call makes the
loop run exactly 10 rounds, warn, and return the 10th in-loop reply. -/
theorem C3_bounded_tool_loop_witness :
    alwaysRequestsToolCalls constProvider ∧
    (chatWithRequest constProvider [] nullInvoke).roundCount = maxToolCalls ∧
    (chatWithRequest constProvider [] nullInvoke).warned = true := by
  have halways : alwaysRequestsToolCalls constProvider := by
    intro i
    simp [constProvider]
  have h := C3_bounded_tool_loop constProvider [] nullInvoke halways
  exact ⟨halways, h.2.1, h.2.2.1⟩

/-- C5: when the first backend reply of a turn requests a batch of tool
calls, every requested call is invoked through the client with its outcome
captured individually (a failing call never aborts its siblings — the
invocation list has exactly one captured entry per requested call, in
order), and one synthetic status message summarizing all outcomes is
appended to the conversation history before the backend is re-invoked for
the final text. -/
theorem C5_batch_failures_isolated (jparse : String → Option JValue)
    (sendMessage : List LLMMessage → String)
    (callToolC : String → JValue → Except String JValue)
    (history : List LLMMessage) (userMessage : String) (calls : List FunctionCall)
    (hcalls : extractFunctionCalls jparse
      (sendMessage (history ++ [⟨"user", userMessage⟩])) = some calls)
    (hne : calls ≠ []) :
    (chat jparse sendMessage callToolC history userMessage).invocations =
      calls.map (fun c => (c.name, callToolC c.name c.arguments)) ∧
    (chat jparse sendMessage callToolC history userMessage).invocations.length =
      calls.length ∧
    (chat jparse sendMessage callToolC history userMessage).history =
      ((history ++ [⟨"user", userMessage⟩]) ++
        [⟨"assistant", sendMessage (history ++ [⟨"user", userMessage⟩])⟩,
         ⟨"system", toolResultMessage
           (calls.map (fun c => (c.name, callToolC c.name c.arguments)))⟩]) ++
      [⟨"assistant", (chat jparse sendMessage callToolC history userMessage).response⟩] ∧
    (chat jparse sendMessage callToolC history userMessage).response =
      sendMessage ((history ++ [⟨"user", userMessage⟩]) ++
        [⟨"assistant", sendMessage (history ++ [⟨"user", userMessage⟩])⟩,
         ⟨"system", toolResultMessage
           (calls.map (fun c => (c.name, callToolC c.name c.arguments)))⟩]) := by
  have hlen : calls.length > 0 := List.length_pos.mpr hne
  simp [chat, hcalls, hlen, List.length_map]

/-- Witness for C5: a concrete two-call batch where call "a" succeeds and
call "b" fails still invokes both calls and captures both outcomes. -/
theorem C5_batch_failures_isolated_witness :
    (chat jparse0 sendMessage0 callToolC0 [] "hi").invocations =
      [("a", Except.ok (.str "ra")), ("b", Except.error "boom")] := by
  have h := C5_batch_failures_isolated jparse0 sendMessage0 callToolC0 [] "hi"
    [⟨"a", .null⟩, ⟨"b", .null⟩] rfl (by simp)
  simpa [callToolC0] using h.1

/-- C10: MCPHost.chat performs at most one tool-call round per user message:
after executing the batch of the first reply and re-invoking the backend once,
the second reply is returned verbatim — even when it again requests tool
calls — and the invocation list still contains only the first batch. -/
theorem C10_at_most_one_round (jparse : String → Option JValue)
    (sendMessage : List LLMMessage → String)
    (callToolC : String → JValue → Except String JValue)
    (history : List LLMMessage) (userMessage : String)
    (calls moreCalls : List FunctionCall)
    (hcalls : extractFunctionCalls jparse
      (sendMessage (history ++ [⟨"user", userMessage⟩])) = some calls)
    (hne : calls ≠ [])
    (hmore : extractFunctionCalls jparse
      (sendMessage ((history ++ [⟨"user", userMessage⟩]) ++
        [⟨"assistant", sendMessage (history ++ [⟨"user", userMessage⟩])⟩,
         ⟨"system", toolResultMessage
           (calls.map (fun c => (c.name, callToolC c.name c.arguments)))⟩])) =
      some moreCalls)
    (hmne : moreCalls ≠ []) :
    (chat jparse sendMessage callToolC history userMessage).response =
      sendMessage ((history ++ [⟨"user", userMessage⟩]) ++
        [⟨"assistant", sendMessage (history ++ [⟨"user", userMessage⟩])⟩,
         ⟨"system", toolResultMessage
           (calls.map (fun c => (c.name, callToolC c.name c.arguments)))⟩]) ∧
    (chat jparse sendMessage callToolC history userMessage).invocations =
      calls.map (fun c => (c.name, callToolC c.name c.arguments)) := by
  have hlen : calls.length > 0 := List.length_pos.mpr hne
  simp [chat, hcalls, hlen]

/-- Witness for C10: with a backend that ALWAYS replies with the tool-call
request text, the turn still executes only the first batch (two
invocations) and returns the second reply text verbatim. -/
theorem C10_at_most_one_round_witness :
    (chat jparse0 sendMessage0 callToolC0 [] "hi").response = fcText ∧
    (chat jparse0 sendMessage0 callToolC0 [] "hi").invocations.length = 2 := by
  have h := C10_at_most_one_round jparse0 sendMessage0 callToolC0 [] "hi"
    [⟨"a", .null⟩, ⟨"b", .null⟩] [⟨"a", .null⟩, ⟨"b", .null⟩]
    rfl (by simp) rfl (by simp)
  exact ⟨h.1, by rw [h.2]; rfl⟩

end MCPDemo
